import Mathlib

/-!
Shallow embedding of the `concurrency-map-slice` repository.

The repository has two source files:

* `main.go` (the benchmark program): three implementations of the
  `Map` interface `Get(key) -> (value, ok)` / `Set(key, value)`:
  - `GoMap`: a worker goroutine (`GoMap.run`) owning `m map[string]interface{}`,
    reached through two unbuffered channels `get` (carrying `mapGet`) and
    `set` (carrying `mapSet`);
  - `GoMap1Chan`: the same worker design but with a single channel
    `in chan interface{}` carrying either a `mapGet` or a `mapSet`, dispatched
    by a type switch whose `default` branch panics;
  - `SyncMap`: a `map[string]interface{}` guarded by a `sync.RWMutex`.

* `slice.go`: a `ConcurrentSlice` (a `[]interface{}` guarded by a
  `sync.RWMutex`) in two variants: a bounds-checked `Get` using
  `isset(arr, index) = len(arr) > index`, and an unchecked `Get` that
  indexes directly; plus `Append` and a channel-based `Iter`.

Embedding choices:

* Go `interface{}` values are `GoVal` (`nil` or a string — the program only
  ever stores strings, and `nil` is the zero value of `interface{}`).
* A Go `map[string]interface{}` is `MState := String → Option GoVal`;
  the comma-ok read `value, ok := m[key]` is `mapIndex` (absent keys give
  the zero value `GoVal.nil` and `false`), assignment is `mapAssign`.
* A run-time panic (out-of-range slice index, unknown type in the
  single-channel worker's switch) is `Except.error` of a `GoPanic`.
* Each actor worker's loop body is a step function on its owned map state;
  processing a whole arrival sequence of requests is a fold (`runOps`)
  returning the final state and the list of replies sent to `Get` callers.
  Channel rendezvous means the worker consumes one request at a time, so a
  concurrent execution corresponds to some arrival order of the requests.
-/

/-- A Go `interface{}` value as used by this program: `nil` or a string. -/
inductive GoVal where
  | nil : GoVal
  | str : String → GoVal
  deriving DecidableEq, Repr

/-- A Go run-time panic relevant to this program. -/
inductive GoPanic where
  /-- `panic: runtime error: index out of range` from indexing a slice. -/
  | indexOutOfRange : GoPanic
  /-- `panic("Unknown type on GoMap1Chan in")` from the type switch default. -/
  | unknownType : GoPanic
  deriving DecidableEq, Repr

/-- The contents of a Go `map[string]interface{}`. -/
def MState : Type := String → Option GoVal

/-- `make(map[string]interface{})`: the empty map. -/
def emptyMap : MState := fun _ => none

/-- The Go comma-ok map read `value, ok := m[key]`: an absent key yields the
zero value of `interface{}` (`nil`) and `ok = false`. -/
def mapIndex (m : MState) (key : String) : GoVal × Bool :=
  match m key with
  | some v => (v, true)
  | none => (GoVal.nil, false)

/-- The Go map assignment `m[key] = value`: insert or overwrite. -/
def mapAssign (m : MState) (key : String) (value : GoVal) : MState :=
  fun k => if k = key then some value else m k

/-- `SyncMap.Get` (main.go): `RLock`; `value, ok := s.m[key]`; return both.
The body contains no assignment, so the embedded operation is a pure
function of the map state. -/
def SyncMap.Get (m : MState) (key : String) : GoVal × Bool :=
  mapIndex m key

/-- `SyncMap.Set` (main.go): `Lock`; `s.m[key] = value`. -/
def SyncMap.Set (m : MState) (key : String) (value : GoVal) : MState :=
  mapAssign m key value

/-- One request reaching the `GoMap` worker: either a `mapGet{key, out}`
delivered on the `get` channel (the response channel is implicit — the reply
is collected in the output list of `GoMap.runOps`) or a `mapSet{key, value}`
delivered on the `set` channel. -/
inductive MapOp where
  | get : String → MapOp
  | set : String → GoVal → MapOp
  deriving DecidableEq, Repr

/-- One iteration of the `GoMap.run` select loop (main.go, lines 50–67) on a
delivered request: a `mapGet` looks up `g.m[r.key]` comma-ok and replies
`mapResult{value, ok}` on `r.out`; a `mapSet` assigns `g.m[r.key] = r.value`
and replies nothing. -/
def GoMap.runStep (m : MState) : MapOp → MState × Option (GoVal × Bool)
  | .get key => (m, some (mapIndex m key))
  | .set key value => (mapAssign m key value, none)

/-- The `GoMap.run` worker loop processing a whole arrival sequence of
requests: the final owned map and the list of replies sent to `Get`
callers, in order. -/
def GoMap.runOps (m : MState) : List MapOp → MState × List (GoVal × Bool)
  | [] => (m, [])
  | op :: rest =>
    match GoMap.runStep m op with
    | (m', none) => GoMap.runOps m' rest
    | (m', some r) =>
      let p := GoMap.runOps m' rest
      (p.1, r :: p.2)

/-- A value received from the `GoMap1Chan.in` channel of type
`chan interface{}`: a `mapGet`, a `mapSet`, or any other value (the
type-switch `default` case). -/
inductive ChanMsg where
  | mapGet : String → ChanMsg
  | mapSet : String → GoVal → ChanMsg
  | other : ChanMsg
  deriving DecidableEq, Repr

/-- One iteration of the `GoMap1Chan.run` loop (main.go, lines 99–112): a
type switch on the received value — `mapGet` replies `mapResult{value, ok}`,
`mapSet` assigns, anything else panics `"Unknown type on GoMap1Chan in"`. -/
def GoMap1Chan.runStep (m : MState) :
    ChanMsg → Except GoPanic (MState × Option (GoVal × Bool))
  | .mapGet key => .ok (m, some (mapIndex m key))
  | .mapSet key value => .ok (mapAssign m key value, none)
  | .other => .error GoPanic.unknownType

/-- The `GoMap1Chan.run` worker loop over a whole arrival sequence; an
unknown message aborts the run (the panic propagates). -/
def GoMap1Chan.runOps (m : MState) :
    List ChanMsg → Except GoPanic (MState × List (GoVal × Bool))
  | [] => .ok (m, [])
  | msg :: rest =>
    match GoMap1Chan.runStep m msg with
    | .error e => .error e
    | .ok (m', none) => GoMap1Chan.runOps m' rest
    | .ok (m', some r) =>
      match GoMap1Chan.runOps m' rest with
      | .error e => .error e
      | .ok p => .ok (p.1, r :: p.2)

/-- The message that `GoMap1Chan.Get`/`GoMap1Chan.Set` send on the single
channel for a given operation: `Get` sends a `mapGet`, `Set` sends a
`mapSet` — these are the only two variants the contract ever constructs. -/
def MapOp.toMsg : MapOp → ChanMsg
  | .get key => ChanMsg.mapGet key
  | .set key value => ChanMsg.mapSet key value

/-- `isset` (slice.go, line 44): `len(arr) > index`. Note it checks only the
upper bound. -/
def isset (arr : List GoVal) (index : Int) : Bool :=
  (arr.length : Int) > index

/-- Go slice indexing `arr[index]`: yields the element when
`0 ≤ index < len(arr)` and panics `index out of range` otherwise. -/
def goIndex (arr : List GoVal) (index : Int) : Except GoPanic GoVal :=
  if h : 0 ≤ index ∧ index.toNat < arr.length then .ok (arr.get ⟨index.toNat, h.2⟩)
  else .error GoPanic.indexOutOfRange

/-- The bounds-checked `ConcurrentSlice.Get` (slice.go, lines 35–42):
`RLock`; `if isset(cs.items, index) { return cs.items[index] }; return nil`. -/
def ConcurrentSlice.Get (items : List GoVal) (index : Int) :
    Except GoPanic GoVal :=
  if isset items index then goIndex items index else .ok GoVal.nil

/-- The unchecked `ConcurrentSlice.Get` variant (slice.go, lines 100–105):
`Lock`; `return cs.items[index]` — "NOT SAVE make you sure the index is
valid!!!!". -/
def ConcurrentSlice.GetUnsafe (items : List GoVal) (index : Int) :
    Except GoPanic GoVal :=
  goIndex items index

/-- The bounds-checked `Get` with the state threaded through explicitly:
the body reads `cs.items` and assigns nothing, so the outgoing state is the
incoming one on every non-panicking path. -/
def ConcurrentSlice.GetSt (items : List GoVal) (index : Int) :
    Except GoPanic (GoVal × List GoVal) :=
  if isset items index then
    match goIndex items index with
    | .error e => .error e
    | .ok v => .ok (v, items)
  else .ok (GoVal.nil, items)

/-- `ConcurrentSlice.Append` (slice.go, lines 28–32): `Lock`;
`cs.items = append(cs.items, item)`. -/
def ConcurrentSlice.Append (items : List GoVal) (item : GoVal) : List GoVal :=
  items ++ [item]

/-- The producer loop of `ConcurrentSlice.Iter` (slice.go, lines 51–64)
starting at a given index: `for index, value := range cs.items
{ c <- ConcurrentSliceItem{index, value} }; close(c)`. The list is the
exact sequence of items sent on the channel before it is closed. -/
def ConcurrentSlice.iterFrom (index : Nat) : List GoVal → List (Nat × GoVal)
  | [] => []
  | v :: rest => (index, v) :: ConcurrentSlice.iterFrom (index + 1) rest

/-- `ConcurrentSlice.Iter`: the sequence of `ConcurrentSliceItem`s emitted
for a snapshot of the items, from index 0; the channel is closed after the
last one, so the emitted sequence is exactly this finite list. -/
def ConcurrentSlice.Iter (items : List GoVal) : List (Nat × GoVal) :=
  ConcurrentSlice.iterFrom 0 items

theorem slice_get_ge_length (items : List GoVal) (index : Int)
    (h : (items.length : Int) ≤ index) :
    ConcurrentSlice.Get items index = .ok GoVal.nil := by
  unfold ConcurrentSlice.Get isset
  simp [not_lt.mpr h]

theorem slice_get_neg (items : List GoVal) (index : Int) (h : index < 0) :
    ConcurrentSlice.Get items index = .error GoPanic.indexOutOfRange := by
  have h1 : (items.length : Int) > index := lt_of_lt_of_le h (Int.ofNat_nonneg _)
  have h2 : ¬ (0 ≤ index ∧ index.toNat < items.length) := by
    intro hc; exact absurd hc.1 (not_le.mpr h)
  unfold ConcurrentSlice.Get isset goIndex
  simp [h1, h2]

theorem slice_get_in_range (items : List GoVal) (i : Nat) (h : i < items.length) :
    ConcurrentSlice.Get items (i : Int) = .ok (items.get ⟨i, h⟩) := by
  have h1 : ((items.length : Int) > (i : Int)) := by exact_mod_cast h
  have h2 : (0 : Int) ≤ (i : Int) ∧ (i : Int).toNat < items.length := by
    constructor
    · exact Int.ofNat_nonneg i
    · simpa using h
  unfold ConcurrentSlice.Get isset goIndex
  simp [h1, h2, h]

theorem iterFrom_eq_zip_range (l : List GoVal) :
    ∀ n : Nat, ConcurrentSlice.iterFrom n l = (List.range' n l.length).zip l := by
  induction l with
  | nil => intro n; rfl
  | cons v rest ih =>
    intro n
    simp [ConcurrentSlice.iterFrom, List.range'_succ, ih]

theorem mapIndex_assign_same (m : MState) (k : String) (v : GoVal) :
    mapIndex (mapAssign m k v) k = (v, true) := by
  simp [mapIndex, mapAssign]

theorem mapAssign_other (m : MState) (k k2 : String) (v : GoVal) (h : k2 ≠ k) :
    mapAssign m k v k2 = m k2 := by
  simp [mapAssign, h]

theorem runOps_map_toMsg (ops : List MapOp) (m : MState) :
    GoMap1Chan.runOps m (ops.map MapOp.toMsg) = .ok (GoMap.runOps m ops) := by
  induction ops generalizing m with
  | nil => rfl
  | cons op rest ih =>
    cases op with
    | get key =>
      simp [GoMap.runOps, GoMap1Chan.runOps, MapOp.toMsg, GoMap.runStep,
        GoMap1Chan.runStep, ih]
    | set key value =>
      simp [GoMap.runOps, GoMap1Chan.runOps, MapOp.toMsg, GoMap.runStep,
        GoMap1Chan.runStep, ih]

theorem runOps_gets_state (keys : List String) (m : MState) :
    (GoMap.runOps m (keys.map MapOp.get)).1 = m := by
  induction keys generalizing m with
  | nil => rfl
  | cons k rest ih =>
    simp [GoMap.runOps, GoMap.runStep, ih]

theorem runOps1_gets_state (keys : List String) (m : MState) :
    (GoMap1Chan.runOps m (keys.map ChanMsg.mapGet)).map Prod.fst = .ok m := by
  induction keys generalizing m with
  | nil => rfl
  | cons k rest ih =>
    simp [GoMap1Chan.runOps, GoMap1Chan.runStep]
    have ih2 := ih m
    cases hrec : GoMap1Chan.runOps m (rest.map ChanMsg.mapGet) with
    | error e => rw [hrec] at ih2; simp [Except.map] at ih2
    | ok p =>
      rw [hrec] at ih2
      simp [Except.map] at ih2 ⊢
      exact ih2

theorem mapIndex_assign_other (m : MState) (k k2 : String) (v : GoVal) (h : k2 ≠ k) :
    mapIndex (mapAssign m k v) k2 = mapIndex m k2 := by
  unfold mapIndex
  rw [mapAssign_other _ _ _ _ h]

theorem getSt_frame (items : List GoVal) (index : Int) :
    ConcurrentSlice.GetSt items index
      = (ConcurrentSlice.Get items index).map (fun v => (v, items)) := by
  unfold ConcurrentSlice.GetSt ConcurrentSlice.Get
  by_cases h : isset items index
  · simp only [h, if_true]
    cases goIndex items index <;> simp [Except.map]
  · simp [h, Except.map]

/-- C1: the spec requires the bounds-checked `ConcurrentSlice.Get` to return
a not-found result for `i >= length` or `i < 0` and never crash. The code's
`isset` checks only `len(arr) > index`, so a negative index passes the check
and the subsequent `cs.items[index]` panics with index out of range — already
on the empty sequence at index `-1`. For `i >= length` the not-found (`nil`)
result does hold. -/
theorem C1_get_negative_index_panics :
    ConcurrentSlice.Get [] (-1) = Except.error GoPanic.indexOutOfRange
    ∧ ConcurrentSlice.Get [] 0 = Except.ok GoVal.nil := ⟨rfl, rfl⟩

/-- C2 counterexample: the claim says an out-of-range index is reported via
a found/ok flag and is never fatal; at index `-1` on a one-element sequence
the call is fatal (index-out-of-range panic), and no found flag exists in
the return value at all. -/
theorem C2_counterexample_negative_fatal :
    ConcurrentSlice.Get [GoVal.str "a"] (-1)
      = Except.error GoPanic.indexOutOfRange := rfl

/-- C2 (amended): `ConcurrentSlice.Get(index)` returns a single value that
is `nil` whenever `index >= length` — absence is reported by the `nil`
result, a recoverable condition — while a negative index is fatal (panic);
`Get` on the map variants reports a missing key via its ok flag. -/
theorem C2_absence_reporting :
    (∀ (items : List GoVal) (index : Int), (items.length : Int) ≤ index →
      ConcurrentSlice.Get items index = .ok GoVal.nil)
    ∧ (∀ (items : List GoVal) (index : Int), index < 0 →
      ConcurrentSlice.Get items index = .error GoPanic.indexOutOfRange)
    ∧ (∀ (m : MState) (key : String), (mapIndex m key).2 = false ↔ m key = none) := by
  refine ⟨slice_get_ge_length, slice_get_neg, ?_⟩
  intro m key
  unfold mapIndex
  cases m key <;> simp

/-- C2 witness: the amended behaviors at concrete inputs. -/
theorem C2_absence_reporting_witness :
    ConcurrentSlice.Get [GoVal.str "a"] 1 = .ok GoVal.nil
    ∧ ConcurrentSlice.Get [GoVal.str "a"] (-2) = .error GoPanic.indexOutOfRange
    ∧ ((mapIndex emptyMap "missing").2 = false ↔ emptyMap "missing" = none) :=
  ⟨C2_absence_reporting.1 _ 1 (by decide),
   C2_absence_reporting.2.1 _ (-2) (by decide),
   C2_absence_reporting.2.2 emptyMap "missing"⟩

/-- C3: from the empty store, `Set("7", "The value 7")` then `Get("7")`
returns `("The value 7", true)` and `Get("999")` returns `(nil, false)`,
on all three variants (SyncMap directly; GoMap and GoMap1Chan through
their worker loops). -/
theorem C3_end_to_end_scenario :
    SyncMap.Get (SyncMap.Set emptyMap "7" (GoVal.str "The value 7")) "7"
      = (GoVal.str "The value 7", true)
    ∧ SyncMap.Get (SyncMap.Set emptyMap "7" (GoVal.str "The value 7")) "999"
      = (GoVal.nil, false)
    ∧ (GoMap.runOps emptyMap
        [MapOp.set "7" (GoVal.str "The value 7"), MapOp.get "7", MapOp.get "999"]).2
      = [(GoVal.str "The value 7", true), (GoVal.nil, false)]
    ∧ (GoMap1Chan.runOps emptyMap
        [ChanMsg.mapSet "7" (GoVal.str "The value 7"), ChanMsg.mapGet "7",
         ChanMsg.mapGet "999"]).map Prod.snd
      = Except.ok [(GoVal.str "The value 7", true), (GoVal.nil, false)] :=
  ⟨rfl, rfl, by decide, rfl⟩

/-- C4: for every arrival sequence of Get/Set operations, the single-channel
worker (`GoMap1Chan.run`) produces exactly the same Get replies and the same
final mapping as the two-channel worker (`GoMap.run`) — and in particular it
never reaches its panic branch, since `Get`/`Set` only send `mapGet`/`mapSet`
values. -/
theorem C4_actor_variants_equivalent (m : MState) (ops : List MapOp) :
    GoMap1Chan.runOps m (ops.map MapOp.toMsg) = .ok (GoMap.runOps m ops) :=
  runOps_map_toMsg ops m

/-- C5: `Iter` on a snapshot holding `v0..v(n-1)` emits exactly the items
`(0, v0), ..., (n-1, v(n-1))` — the pointwise pairing of `0..n-1` with the
elements, one item per element, in increasing index order — and the emitted
sequence is the finite list of exactly those `n` items (the channel is then
closed, terminating the sequence). -/
theorem C5_iter_enumerates_snapshot (items : List GoVal) :
    ConcurrentSlice.Iter items = (List.range items.length).zip items
    ∧ (ConcurrentSlice.Iter items).length = items.length := by
  have h := iterFrom_eq_zip_range items 0
  constructor
  · rw [ConcurrentSlice.Iter, h, List.range_eq_range']
  · rw [ConcurrentSlice.Iter, h]
    simp

/-- C6: on every variant, keys are unique and the last Set wins —
`Set(k, v1)` then `Set(k, v2)` then `Get(k)` yields `(v2, true)` — and
entries of every other key `k2 ≠ k` are untouched by those Sets. For the
actor variants the two Sets are the requests processed by the worker loop;
the GoMap1Chan conjuncts additionally run a trailing Get through the
worker. -/
theorem C6_last_set_wins (m : MState) (k k2 : String) (v1 v2 : GoVal)
    (h : k2 ≠ k) :
    SyncMap.Get (SyncMap.Set (SyncMap.Set m k v1) k v2) k = (v2, true)
    ∧ SyncMap.Get (SyncMap.Set (SyncMap.Set m k v1) k v2) k2 = SyncMap.Get m k2
    ∧ mapIndex (GoMap.runOps m [MapOp.set k v1, MapOp.set k v2]).1 k = (v2, true)
    ∧ (GoMap.runOps m [MapOp.set k v1, MapOp.set k v2]).1 k2 = m k2
    ∧ GoMap1Chan.runOps m [ChanMsg.mapSet k v1, ChanMsg.mapSet k v2, ChanMsg.mapGet k]
        = .ok (mapAssign (mapAssign m k v1) k v2, [(v2, true)])
    ∧ GoMap1Chan.runOps m [ChanMsg.mapSet k v1, ChanMsg.mapSet k v2, ChanMsg.mapGet k2]
        = .ok (mapAssign (mapAssign m k v1) k v2, [mapIndex m k2]) := by
  refine ⟨?_, ?_, ?_, ?_, ?_, ?_⟩
  · exact mapIndex_assign_same _ _ _
  · show mapIndex (mapAssign (mapAssign m k v1) k v2) k2 = mapIndex m k2
    rw [mapIndex_assign_other _ _ _ _ h, mapIndex_assign_other _ _ _ _ h]
  · exact mapIndex_assign_same _ _ _
  · show mapAssign (mapAssign m k v1) k v2 k2 = m k2
    rw [mapAssign_other _ _ _ _ h, mapAssign_other _ _ _ _ h]
  · show Except.ok (mapAssign (mapAssign m k v1) k v2,
        [mapIndex (mapAssign (mapAssign m k v1) k v2) k]) = _
    rw [mapIndex_assign_same]
  · show Except.ok (mapAssign (mapAssign m k v1) k v2,
        [mapIndex (mapAssign (mapAssign m k v1) k v2) k2]) = _
    rw [mapIndex_assign_other _ _ _ _ h, mapIndex_assign_other _ _ _ _ h]

/-- C6 witness: the statement at the empty map with `k = "a"`, `k2 = "b"`,
`v1 = "1"`, `v2 = "2"`. -/
theorem C6_last_set_wins_witness :
    SyncMap.Get (SyncMap.Set (SyncMap.Set emptyMap "a" (GoVal.str "1")) "a" (GoVal.str "2")) "a"
      = (GoVal.str "2", true)
    ∧ SyncMap.Get (SyncMap.Set (SyncMap.Set emptyMap "a" (GoVal.str "1")) "a" (GoVal.str "2")) "b"
      = SyncMap.Get emptyMap "b"
    ∧ mapIndex (GoMap.runOps emptyMap
        [MapOp.set "a" (GoVal.str "1"), MapOp.set "a" (GoVal.str "2")]).1 "a"
      = (GoVal.str "2", true)
    ∧ (GoMap.runOps emptyMap
        [MapOp.set "a" (GoVal.str "1"), MapOp.set "a" (GoVal.str "2")]).1 "b" = emptyMap "b"
    ∧ GoMap1Chan.runOps emptyMap
        [ChanMsg.mapSet "a" (GoVal.str "1"), ChanMsg.mapSet "a" (GoVal.str "2"),
         ChanMsg.mapGet "a"]
      = .ok (mapAssign (mapAssign emptyMap "a" (GoVal.str "1")) "a" (GoVal.str "2"),
          [(GoVal.str "2", true)])
    ∧ GoMap1Chan.runOps emptyMap
        [ChanMsg.mapSet "a" (GoVal.str "1"), ChanMsg.mapSet "a" (GoVal.str "2"),
         ChanMsg.mapGet "b"]
      = .ok (mapAssign (mapAssign emptyMap "a" (GoVal.str "1")) "a" (GoVal.str "2"),
          [mapIndex emptyMap "b"]) :=
  C6_last_set_wins emptyMap "a" "b" (GoVal.str "1") (GoVal.str "2") (by decide)

/-- C7: the single-channel worker dispatches on the request's dynamic type:
a `mapGet` is answered with the comma-ok lookup, a `mapSet` mutates the
owned mapping, and any other value aborts with
`panic("Unknown type on GoMap1Chan in")`; when only values built by
`Get`/`Set` (`mapGet`/`mapSet`) are sent, the panic branch is unreachable. -/
theorem C7_type_switch_dispatch (m : MState) (key k2 : String) (value : GoVal)
    (msg : ChanMsg) (h : msg ≠ ChanMsg.other) :
    GoMap1Chan.runStep m (ChanMsg.mapGet key) = .ok (m, some (mapIndex m key))
    ∧ GoMap1Chan.runStep m (ChanMsg.mapSet k2 value) = .ok (mapAssign m k2 value, none)
    ∧ GoMap1Chan.runStep m ChanMsg.other = .error GoPanic.unknownType
    ∧ ∃ r, GoMap1Chan.runStep m msg = .ok r := by
  refine ⟨rfl, rfl, rfl, ?_⟩
  cases msg with
  | mapGet k => exact ⟨_, rfl⟩
  | mapSet k v => exact ⟨_, rfl⟩
  | other => exact absurd rfl h

/-- C7 witness: the dispatch behaviors at the empty map with a `mapGet "x"`
message for the unreachable-panic part. -/
theorem C7_type_switch_dispatch_witness :
    GoMap1Chan.runStep emptyMap (ChanMsg.mapGet "x")
      = .ok (emptyMap, some (mapIndex emptyMap "x"))
    ∧ GoMap1Chan.runStep emptyMap (ChanMsg.mapSet "y" (GoVal.str "v"))
      = .ok (mapAssign emptyMap "y" (GoVal.str "v"), none)
    ∧ GoMap1Chan.runStep emptyMap ChanMsg.other = .error GoPanic.unknownType
    ∧ ∃ r, GoMap1Chan.runStep emptyMap (ChanMsg.mapGet "x") = .ok r :=
  C7_type_switch_dispatch emptyMap "x" "y" (GoVal.str "v") (ChanMsg.mapGet "x") (by decide)

/-- C8: `Append(v)` grows the sequence by exactly one element placed at the
end and never fails (it is a total operation); every index below the old
length retrieves the same element as before the Append, and the old length
now retrieves `v`. -/
theorem C8_append_grows_and_frames (items : List GoVal) (v : GoVal) :
    (ConcurrentSlice.Append items v).length = items.length + 1
    ∧ (∀ i : Nat, i < items.length →
        ConcurrentSlice.Get (ConcurrentSlice.Append items v) (i : Int)
          = ConcurrentSlice.Get items (i : Int))
    ∧ ConcurrentSlice.Get (ConcurrentSlice.Append items v) (items.length : Int)
        = .ok v := by
  have hlen : (ConcurrentSlice.Append items v).length = items.length + 1 := by
    simp [ConcurrentSlice.Append]
  refine ⟨hlen, ?_, ?_⟩
  · intro i h
    have h2 : i < (ConcurrentSlice.Append items v).length := by omega
    rw [slice_get_in_range items i h, slice_get_in_range _ i h2]
    congr 1
    simp only [List.get_eq_getElem, ConcurrentSlice.Append]
    exact (List.getElem_append_left' [v] h).symm
  · have h3 : items.length < (ConcurrentSlice.Append items v).length := by omega
    rw [slice_get_in_range _ items.length h3]
    congr 1
    simp only [List.get_eq_getElem, ConcurrentSlice.Append]
    exact List.getElem_concat_length items v items.length rfl (by simp [ConcurrentSlice.Append])

/-- C8 witness: appending `"b"` to the one-element sequence `["a"]`. -/
theorem C8_append_grows_and_frames_witness :
    (ConcurrentSlice.Append [GoVal.str "a"] (GoVal.str "b")).length = 1 + 1
    ∧ ConcurrentSlice.Get (ConcurrentSlice.Append [GoVal.str "a"] (GoVal.str "b")) ((0 : Nat) : Int)
        = ConcurrentSlice.Get [GoVal.str "a"] ((0 : Nat) : Int)
    ∧ ConcurrentSlice.Get (ConcurrentSlice.Append [GoVal.str "a"] (GoVal.str "b"))
        ((List.length [GoVal.str "a"] : Nat) : Int)
        = .ok (GoVal.str "b") :=
  ⟨(C8_append_grows_and_frames [GoVal.str "a"] (GoVal.str "b")).1,
   (C8_append_grows_and_frames [GoVal.str "a"] (GoVal.str "b")).2.1 0 (by decide),
   (C8_append_grows_and_frames [GoVal.str "a"] (GoVal.str "b")).2.2⟩

/-- C9: with two concurrent callers issuing `Set(k, v1)` and `Set(k, v2)`,
the worker receives the two write requests in one of the two possible
arrival orders; in either order the final stored value at `k` is exactly one
of `v1`/`v2` (the later arrival), a subsequent Get request is answered with
precisely that final value while leaving the mapping untouched (so every
later Get agrees), and the single-channel worker processing the same
arrival order followed by a Get reaches the same final mapping and answers
the same value. -/
theorem C9_concurrent_writes_linearized (m : MState) (k : String) (v1 v2 : GoVal)
    (ops : List MapOp)
    (h : ops = [MapOp.set k v1, MapOp.set k v2]
      ∨ ops = [MapOp.set k v2, MapOp.set k v1]) :
    (mapIndex (GoMap.runOps m ops).1 k = (v1, true)
      ∨ mapIndex (GoMap.runOps m ops).1 k = (v2, true))
    ∧ GoMap.runStep (GoMap.runOps m ops).1 (MapOp.get k)
        = ((GoMap.runOps m ops).1, some (mapIndex (GoMap.runOps m ops).1 k))
    ∧ GoMap1Chan.runOps m (ops.map MapOp.toMsg ++ [ChanMsg.mapGet k])
        = .ok ((GoMap.runOps m ops).1, [mapIndex (GoMap.runOps m ops).1 k]) := by
  rcases h with h | h
  · subst h
    exact ⟨Or.inr (mapIndex_assign_same _ _ _), rfl, rfl⟩
  · subst h
    exact ⟨Or.inl (mapIndex_assign_same _ _ _), rfl, rfl⟩

/-- C9 witness: the two writes `Set("k","1")`, `Set("k","2")` arriving in
program order at the empty map. -/
theorem C9_concurrent_writes_linearized_witness :
    (mapIndex (GoMap.runOps emptyMap
        [MapOp.set "k" (GoVal.str "1"), MapOp.set "k" (GoVal.str "2")]).1 "k"
        = (GoVal.str "1", true)
      ∨ mapIndex (GoMap.runOps emptyMap
        [MapOp.set "k" (GoVal.str "1"), MapOp.set "k" (GoVal.str "2")]).1 "k"
        = (GoVal.str "2", true))
    ∧ GoMap.runStep (GoMap.runOps emptyMap
        [MapOp.set "k" (GoVal.str "1"), MapOp.set "k" (GoVal.str "2")]).1 (MapOp.get "k")
        = ((GoMap.runOps emptyMap
            [MapOp.set "k" (GoVal.str "1"), MapOp.set "k" (GoVal.str "2")]).1,
          some (mapIndex (GoMap.runOps emptyMap
            [MapOp.set "k" (GoVal.str "1"), MapOp.set "k" (GoVal.str "2")]).1 "k"))
    ∧ GoMap1Chan.runOps emptyMap
        ([MapOp.set "k" (GoVal.str "1"), MapOp.set "k" (GoVal.str "2")].map MapOp.toMsg
          ++ [ChanMsg.mapGet "k"])
        = .ok ((GoMap.runOps emptyMap
            [MapOp.set "k" (GoVal.str "1"), MapOp.set "k" (GoVal.str "2")]).1,
          [mapIndex (GoMap.runOps emptyMap
            [MapOp.set "k" (GoVal.str "1"), MapOp.set "k" (GoVal.str "2")]).1 "k"]) :=
  C9_concurrent_writes_linearized emptyMap "k" (GoVal.str "1") (GoVal.str "2")
    [MapOp.set "k" (GoVal.str "1"), MapOp.set "k" (GoVal.str "2")] (Or.inl rfl)

/-- C10: every Get is read-only. The Get branch of each worker loop replies
without touching the owned mapping — for a single request and for any
all-Gets arrival sequence — and the bounds-checked slice Get with its state
threaded through returns the incoming items unchanged on every path.
(`SyncMap.Get` and the slice `Get` bodies contain no assignment at all, so
their embeddings are pure functions of the state; `ConcurrentSlice.GetSt`
makes the frame explicit for the slice.) -/
theorem C10_gets_read_only (m : MState) (key : String) (keys : List String)
    (items : List GoVal) (index : Int) :
    (GoMap.runStep m (MapOp.get key)).1 = m
    ∧ GoMap1Chan.runStep m (ChanMsg.mapGet key) = .ok (m, some (mapIndex m key))
    ∧ (GoMap.runOps m (keys.map MapOp.get)).1 = m
    ∧ (GoMap1Chan.runOps m (keys.map ChanMsg.mapGet)).map Prod.fst = .ok m
    ∧ ConcurrentSlice.GetSt items index
        = (ConcurrentSlice.Get items index).map (fun v => (v, items)) :=
  ⟨rfl, rfl, runOps_gets_state keys m, runOps1_gets_state keys m,
    getSt_frame items index⟩
